import Mathlib

/-!
# Counter rate tracker (grnoc/counter) and its use by the TSDS output plugin

A shallow embedding of `grnoc/counter/counter.go` (`Counter`, `Measurement`,
`NewMeasurement`, `Add`, `GetRate`) and of `TSDS.ProcessRates` from
`plugins/outputs/tsds/tsds.go`, followed by the properties proved about them.

Modelling choices:

* `float64` is `F64`, an IEEE-754 binary64 value given by its three bit fields,
  with executable round-to-nearest-even subtraction, addition, division,
  comparison and conversion from integers.
* `int64` is `Int`; every `int64` operation that can overflow is wrapped by
  `wrap64` (two's complement, 64 bits).
* the map `Values map[string]*Measurement` holds pointers, so the state has the
  map (`Values`) and the memory the pointers refer to (`cell`, `next`).
  A pointer with no cell behind it behaves like `nil`: dereferencing it
  panics, which the model reports as `none`.
* `fmt.Errorf` values are modelled by a constructor per message, carrying the
  formatted arguments; logging is not modelled.
-/

namespace Telegraf

/-! ## float64 -/

/-- An IEEE-754 binary64 value: sign bit, 11-bit biased exponent, 52-bit fraction. -/
structure F64 where
  sign : Bool
  expo : Fin 2048
  frac : Fin 4503599627370496
  deriving DecidableEq, Repr

namespace F64

/-- The value with sign `s` whose 63 low bits are `k`. -/
def ofMag (s : Bool) (k : Nat) : F64 :=
  ⟨s, ⟨(k / 4503599627370496) % 2048, Nat.mod_lt _ (by decide)⟩,
      ⟨k % 4503599627370496, Nat.mod_lt _ (by decide)⟩⟩

/-- The 63 low bits (exponent and fraction) read as one number. -/
def mag (x : F64) : Nat := x.expo.val * 4503599627370496 + x.frac.val

/-- Counterpart of `math.IsNaN`. -/
def isNaN (x : F64) : Bool := decide (x.expo.val = 2047) && decide (x.frac.val ≠ 0)

def isInf (x : F64) : Bool := decide (x.expo.val = 2047) && decide (x.frac.val = 0)

/-- The NaN produced by an invalid operation (quiet, empty payload). The language
does not fix the sign or payload of such a NaN; nothing below depends on them. -/
def qNaN : F64 := ofMag false (2047 * 4503599627370496 + 2251799813685248)

/-- Counterpart of `math.NaN()`, bit pattern `0x7FF8000000000001`. -/
def mathNaN : F64 := ofMag false (2047 * 4503599627370496 + 2251799813685248 + 1)

def inf (s : Bool) : F64 := ofMag s (2047 * 4503599627370496)

/-- Sign-magnitude reading of the bits; on values that are not NaN it is
monotone in the real value (and sends both zeros to `0`). -/
def key (x : F64) : Int := if x.sign then -(x.mag : Int) else (x.mag : Int)

/-- IEEE `<`. -/
def lt (x y : F64) : Bool := !x.isNaN && !y.isNaN && decide (x.key < y.key)

/-- IEEE `<=`. -/
def le (x y : F64) : Bool := !x.isNaN && !y.isNaN && decide (x.key ≤ y.key)

/-- Significand of a finite value (hidden bit included for normal numbers). -/
def mant (x : F64) : Nat :=
  if x.expo.val = 0 then x.frac.val else 4503599627370496 + x.frac.val

/-- Absolute value of a finite `x` in units of `2^(-1074)`. -/
def scaled (x : F64) : Nat := x.mant * 2 ^ (max x.expo.val 1 - 1)

/-- Value of a finite `x` in units of `2^(-1074)`. -/
def sval (x : F64) : Int := if x.sign then -(x.scaled : Int) else (x.scaled : Int)

/-- Floor of the binary logarithm (for `0 < n < 2^4096`, which covers every
`int64` and every numerator and denominator formed from binary64 operands). -/
def ilog2 (n : Nat) : Nat :=
  [2048, 1024, 512, 256, 128, 64, 32, 16, 8, 4, 2, 1].foldl
    (fun acc b => if 2 ^ (acc + b) ≤ n then acc + b else acc) 0

/-- Exponent and fraction bits of the binary64 nearest (ties to even) to the
rational `num / den` (`num > 0`, `den > 0`); `2047 * 2^52` or more on overflow. -/
def roundMag (num den : Nat) : Nat :=
  let l : Int := (ilog2 num : Int) - (ilog2 den : Int)
  let E : Int := if den * 2 ^ l.toNat ≤ num * 2 ^ (-l).toNat then l else l - 1
  let e : Int := max E (-1022) - 52
  let n := num * 2 ^ (-e).toNat
  let d := den * 2 ^ e.toNat
  let q := n / d
  let r := n % d
  let m := if d < 2 * r ∨ (2 * r = d ∧ q % 2 = 1) then q + 1 else q
  (e + 1074).toNat * 4503599627370496 + m

/-- Round-to-nearest-even of the rational `num / den` (`den > 0`) with sign `s`. -/
def round (s : Bool) (num den : Nat) : F64 :=
  if num = 0 then ofMag s 0
  else if 2047 * 4503599627370496 ≤ roundMag num den then inf s
  else ofMag s (roundMag num den)

def neg (x : F64) : F64 := { x with sign := !x.sign }

/-- IEEE `+`, round to nearest even. -/
def add (x y : F64) : F64 :=
  if x.isNaN || y.isNaN then qNaN
  else if x.isInf then (if y.isInf && (x.sign != y.sign) then qNaN else x)
  else if y.isInf then y
  else
    let z := x.sval + y.sval
    if z = 0 then ofMag (x.sign && y.sign) 0
    else round (decide (z < 0)) z.natAbs (2 ^ 1074)

/-- IEEE `-`. -/
def sub (x y : F64) : F64 := add x (neg y)

/-- IEEE `/`, round to nearest even. -/
def div (x y : F64) : F64 :=
  let s := x.sign != y.sign
  if x.isNaN || y.isNaN then qNaN
  else if x.isInf then (if y.isInf then qNaN else inf s)
  else if y.isInf then ofMag s 0
  else if y.scaled = 0 then (if x.scaled = 0 then qNaN else inf s)
  else round s x.scaled y.scaled

/-- Conversion `float64(i)` of an integer. -/
def ofInt (i : Int) : F64 := round (decide (i < 0)) i.natAbs 1

end F64

/-! ## int64 -/

/-- Two's complement wrap-around of an `int64` result. -/
def wrap64 (i : Int) : Int :=
  (i + 9223372036854775808) % 18446744073709551616 - 9223372036854775808

/-- Constant `math.MaxUint32`. -/
def MaxUint32 : Int := 4294967295

/-- Constant `math.MaxUint64`. -/
def MaxUint64 : Int := 18446744073709551615

/-! ## package counter -/

/-- Measurement describes an individual measurement. -/
structure Measurement where
  Interval : Int
  MinValue : F64
  MaxValue : F64
  Timestamp : Int
  Value : F64
  deriving DecidableEq, Repr

/-- DefaultMinValue is a good sane default for MinValue. -/
def DefaultMinValue : Int := 0

/-- DefaultMaxValue is set to 1 Peta. -/
def DefaultMaxValue : Int := 1000 * 1000 * 1000 * 1000 * 1000

abbrev Ptr := Nat

/-- The `Counter` (its map `Values`) together with the memory holding the
`Measurement` objects that the stored pointers refer to. -/
structure State where
  Values : String → Option Ptr
  cell : Ptr → Option Measurement
  next : Ptr

/-- The Measurement a key refers to, if the key is in the map and its pointer is valid. -/
def State.lookup (s : State) (name : String) : Option Measurement :=
  (s.Values name).bind s.cell

/-- Write through a pointer: the object at `p` becomes `m`. -/
def State.setCell (s : State) (p : Ptr) (m : Measurement) : State :=
  { s with cell := Function.update s.cell p (some m) }

/-- NewMeasurement constructs a new Measurement (and returns the pointer to it). -/
def NewMeasurement (s : State) (interval : Int) (timestamp : Int) (min max value : F64) :
    Ptr × State :=
  (s.next,
   { s with
     cell := Function.update s.cell s.next
       (some { Interval := interval, MinValue := min, MaxValue := max,
               Timestamp := timestamp, Value := value })
     next := s.next + 1 })

/-- NewCounter creates a new Counter (an empty map). -/
def NewCounter (s : State) : State := { s with Values := fun _ => none }

/-- Add adds a Measurement to the Counter: `c.Values[name] = m`. -/
def Add (s : State) (name : String) (m : Ptr) : State :=
  { s with Values := Function.update s.Values name (some m) }

/-- The errors `GetRate` builds with `fmt.Errorf`, one constructor per message. -/
inductive GetRateError where
  | nonExistentKey (name : String)
  | gapTooLarge (gap : Int)
  | nanValues (value latest : F64)
  | outOfRange (rate min max : F64)
  deriving DecidableEq, Repr

/-- Lines 86-94 of `GetRate`: the difference, corrected for a counter that wrapped. -/
def adjustedValue (latest value : F64) : F64 :=
  if value.lt latest then
    if (F64.ofInt MaxUint32).lt latest then
      F64.add (F64.sub (F64.ofInt MaxUint64) latest) value
    else
      F64.add (F64.sub (F64.ofInt MaxUint32) latest) value
  else
    F64.sub value latest

/-- Line 96 of `GetRate`. -/
def rawRate (latest : F64) (gap : Int) (value : F64) : F64 :=
  F64.div (adjustedValue latest value) (F64.ofInt gap)

/-- Lines 76-104 of `GetRate`: the checks and the rate, for the Measurement `m`
(already updated), the previous value `latest` and the `gap`. -/
def rateOf (m : Measurement) (latest : F64) (gap : Int) (value : F64) :
    F64 × Option GetRateError :=
  if wrap64 (m.Interval * 6) ≤ gap then
    (F64.mathNaN, some (.gapTooLarge gap))
  else if value.isNaN || latest.isNaN then
    (F64.mathNaN, some (.nanValues value latest))
  else
    let rate := rawRate latest gap value
    if m.MaxValue.lt rate || rate.lt m.MinValue then
      (F64.mathNaN, some (.outOfRange rate m.MinValue m.MaxValue))
    else
      (rate, none)

/-- GetRate calculates the rate of change between the given values and the last
recorded values. The result is `none` when the call panics (nil pointer). -/
def GetRate (s : State) (name : String) (timestamp : Int) (value : F64) :
    Option ((F64 × Option GetRateError) × State) :=
  match s.Values name with
  | none => some ((F64.mathNaN, some (.nonExistentKey name)), s)
  | some p =>
    match s.cell p with
    | none => none
    | some m =>
      let latest := m.Value
      let gap := wrap64 (timestamp - m.Timestamp)
      let m1 := { m with Timestamp := timestamp, Value := value }
      some (rateOf m1 latest gap value, s.setCell p m1)

/-! ## plugin outputs/tsds -/

/-- A value of type `interface{}` as held by `Data.Metadata` and `Data.Values`. -/
inductive Val where
  | nil
  | str (s : String)
  | int64 (i : Int)
  | float64 (x : F64)
  | other (tag : Nat)
  deriving DecidableEq, Repr

/-- The configuration fields of the plugin that `ProcessRates` reads
(`Typ` is the field `Type`). -/
structure TSDS where
  Typ : String
  Interval : Int
  Metadata : List String
  Rates : List String

/-- One record; the two maps are reference values, so updates made by
`ProcessRates` are seen by the caller (`Typ` is the field `Type`). -/
structure Data where
  Typ : String
  Timestamp : Int
  Interval : Int
  Metadata : String → Option Val
  Values : String → Option Val

/-- Lines 262-272 of `ProcessRates`: the key for the rate calculator. -/
def ratekey (server : TSDS) (data : Data) : String :=
  match data.Metadata "node" with
  | some (.str node) =>
    server.Metadata.foldl
      (fun rk metakey =>
        match data.Metadata metakey with
        | some (.str key) => rk ++ key
        | _ => rk)
      (data.Typ ++ node)
  | _ => ""

/-- Lines 301-309 of `ProcessRates`: what is written to `data.Values[measurement]`
for the result of `rc.GetRate`: `nil` on an error, the rate otherwise. -/
def rateField (r : F64 × Option GetRateError) : Val :=
  match r with
  | (_, some _) => Val.nil
  | (rate, none) => Val.float64 rate

/-- Lines 277-311 of `ProcessRates`: the loop over `server.Rates`, on the map
`data.Values` and the package-level counter `rc`. -/
def processRatesLoop (rk : String) (timestamp : Int) :
    List String → (String → Option Val) → State → Option ((String → Option Val) × State)
  | [], values, rc => some (values, rc)
  | measurement :: rest, values, rc =>
    match values measurement with
    | some (Val.int64 value) =>
      match rc.Values rk with
      | none =>
        let a := NewMeasurement rc 60 timestamp (F64.ofInt DefaultMinValue)
          (F64.ofInt DefaultMaxValue) (F64.ofInt value)
        processRatesLoop rk timestamp rest
          (Function.update values measurement (some Val.nil)) (Add a.2 rk a.1)
      | some _ =>
        match GetRate rc rk timestamp (F64.ofInt value) with
        | none => none
        | some (r, rc1) =>
          processRatesLoop rk timestamp rest
            (Function.update values measurement (some (rateField r))) rc1
    | _ => processRatesLoop rk timestamp rest values rc

/-- ProcessRates: returns the updated `data.Values` and counter state. -/
def ProcessRates (server : TSDS) (data : Data) (rc : State) :
    Option ((String → Option Val) × State) :=
  processRatesLoop (ratekey server data) data.Timestamp server.Rates data.Values rc

/-! ## Definitions used in the statements, and example states -/

/-- A Measurement with the default bounds, interval 60, timestamp 0 and value `v`. -/
def exMeasurement (v : F64) : Measurement :=
  { Interval := 60, MinValue := F64.ofInt DefaultMinValue, MaxValue := F64.ofInt DefaultMaxValue,
    Timestamp := 0, Value := v }

/-- A Measurement with previous value `2^32 + 100` and upper bound `10^19`. -/
def exWide : Measurement :=
  { Interval := 60, MinValue := F64.ofInt 0, MaxValue := F64.ofInt 10000000000000000000,
    Timestamp := 0, Value := F64.ofInt 4294967396 }

/-- A Measurement with bounds 0 and 100, interval 60, timestamp 0 and value `v`. -/
def exBounded (v : F64) : Measurement :=
  { Interval := 60, MinValue := F64.ofInt 0, MaxValue := F64.ofInt 100,
    Timestamp := 0, Value := v }

/-- The string values of the configured metadata keys that a record carries, in
configured order. -/
def metaStrings (server : TSDS) (data : Data) : List String :=
  server.Metadata.filterMap
    (fun metakey =>
      match data.Metadata metakey with
      | some (Val.str key) => some key
      | _ => none)

/-- The baseline `ProcessRates` records for a series on first sight. -/
def firstBaseline (timestamp : Int) (value : Int) : Measurement :=
  { Interval := 60, MinValue := F64.ofInt DefaultMinValue, MaxValue := F64.ofInt DefaultMaxValue,
    Timestamp := timestamp, Value := F64.ofInt value }

/-- The counter after a first sighting: `key` points to a new object holding `m`. -/
def withBaseline (rc : State) (key : String) (m : Measurement) : State :=
  { Values := Function.update rc.Values key (some rc.next),
    cell := Function.update rc.cell rc.next (some m),
    next := rc.next + 1 }

/-- A plugin configured with two rate fields and one metadata key. -/
def exServer : TSDS :=
  { Typ := "interface", Interval := 60, Metadata := ["intf"], Rates := ["input", "output"] }

/-- A record of `exServer` with both rate fields present. -/
def exData (vin vout : Int) : Data :=
  { Typ := "interface", Timestamp := 1000, Interval := 60,
    Metadata := Function.update (Function.update (fun _ => none) "node" (some (Val.str "rtr1")))
      "intf" (some (Val.str "ge-0/0/0")),
    Values := Function.update (Function.update (fun _ => none) "input" (some (Val.int64 vin)))
      "output" (some (Val.int64 vout)) }

/-- A later record of the same series as `exData`, 60 seconds on. -/
def exLater : Data :=
  { Typ := "interface", Timestamp := 1060, Interval := 60,
    Metadata := Function.update (Function.update (fun _ => none) "node" (some (Val.str "rtr1")))
      "intf" (some (Val.str "ge-0/0/0")),
    Values := Function.update (Function.update (fun _ => none) "input" (some (Val.int64 850)))
      "output" (some (Val.int64 1450)) }

/-- A record of `exServer` that carries no node metadata. -/
def exNoNode : Data :=
  { Typ := "interface", Timestamp := 1000, Interval := 60,
    Metadata := Function.update (fun _ => none) "intf" (some (Val.str "ge-0/0/0")),
    Values := Function.update (Function.update (fun _ => none) "input" (some (Val.int64 100)))
      "output" (some (Val.int64 250)) }

/-- The counter with no keys, over an empty memory. -/
def emptyState : State := { Values := fun _ => none, cell := fun _ => none, next := 0 }

/-- The counter holding the single key `name`, which points to `m`. -/
def singleState (name : String) (m : Measurement) : State :=
  { Values := Function.update (fun _ => none) name (some 0),
    cell := Function.update (fun _ => none) 0 (some m),
    next := 1 }

/-- The counter holding two keys, pointing to two distinct Measurements. -/
def twoState (k1 k2 : String) (m1 m2 : Measurement) : State :=
  { Values := Function.update (Function.update (fun _ => none) k1 (some 0)) k2 (some 1),
    cell := Function.update (Function.update (fun _ => none) 0 (some m1)) 1 (some m2),
    next := 2 }

/-! ## The float64 model on known values -/

/-- Bit patterns of `1.0`, `0.1`, `1/3`, `1.1` and `10^15`, and the rounding of
`math.MaxUint64` to `2^64`, as produced by IEEE-754 hardware. -/
theorem F64.known_values :
    F64.ofInt 1 = F64.ofMag false 0x3FF0000000000000 ∧
    F64.div (F64.ofInt 1) (F64.ofInt 10) = F64.ofMag false 0x3FB999999999999A ∧
    F64.div (F64.ofInt 1) (F64.ofInt 3) = F64.ofMag false 0x3FD5555555555555 ∧
    F64.div (F64.ofInt 11) (F64.ofInt 10) = F64.ofMag false 0x3FF199999999999A ∧
    F64.ofInt DefaultMaxValue = F64.ofMag false 0x430C6BF526340000 ∧
    F64.ofInt MaxUint32 = F64.ofMag false 0x41EFFFFFFFE00000 ∧
    F64.ofInt MaxUint64 = F64.ofMag false 0x43F0000000000000 ∧
    F64.ofInt MaxUint64 = F64.ofInt 18446744073709551616 ∧
    F64.add (F64.div (F64.ofInt 1) (F64.ofInt 10)) (F64.div (F64.ofInt 2) (F64.ofInt 10))
      = F64.ofMag false 0x3FD3333333333334 ∧
    F64.sub (F64.ofInt 5) (F64.ofInt 5) = F64.ofMag false 0 ∧
    F64.div (F64.ofInt (-5)) (F64.ofInt 0) = F64.inf true ∧
    (F64.div (F64.ofInt 0) (F64.ofInt 0)).isNaN = true ∧
    (F64.sub (F64.inf false) (F64.inf false)).isNaN = true := by
  decide!

theorem F64.ofMag_isNaN (s : Bool) (k : Nat) (h : k ≤ 2047 * 4503599627370496) :
    (F64.ofMag s k).isNaN = false := by
  simp only [F64.ofMag, F64.isNaN, Bool.and_eq_false_imp, decide_eq_true_eq, decide_eq_false_iff_not,
    ne_eq, not_not]
  omega

/-- Rounding never produces a NaN. -/
theorem F64.round_isNaN (s : Bool) (num den : Nat) : (F64.round s num den).isNaN = false := by
  unfold F64.round
  split_ifs with h0 h1
  · exact F64.ofMag_isNaN s 0 (by omega)
  · exact F64.ofMag_isNaN s (2047 * 4503599627370496) (le_refl _)
  · exact F64.ofMag_isNaN s _ (by omega)

/-- A converted integer is never NaN. -/
theorem F64.ofInt_isNaN (i : Int) : (F64.ofInt i).isNaN = false :=
  F64.round_isNaN _ _ _

/-! ## Basic facts -/

theorem GetRate_stored (s : State) (name : String) (p : Ptr) (m : Measurement)
    (timestamp : Int) (value : F64)
    (hk : s.Values name = some p) (hp : s.cell p = some m) :
    GetRate s name timestamp value =
      some (rateOf { m with Timestamp := timestamp, Value := value } m.Value
              (wrap64 (timestamp - m.Timestamp)) value,
            s.setCell p { m with Timestamp := timestamp, Value := value }) := by
  simp [GetRate, hk, hp]

theorem F64.lt_false_of_le (x y : F64) (h : y.le x = true) : x.lt y = false := by
  simp only [F64.le, F64.lt, Bool.and_eq_true, Bool.not_eq_true', decide_eq_true_eq] at h ⊢
  obtain ⟨⟨hy, hx⟩, hxy⟩ := h
  simp [hx, hy]
  omega

theorem F64.le_of_lt_false (x y : F64) (hx : x.isNaN = false) (hy : y.isNaN = false)
    (h : x.lt y = false) : y.le x = true := by
  simp only [F64.lt, hx, hy] at h
  simp only [F64.le, hx, hy]
  simp at h ⊢
  omega

theorem F64.le_or_lt (x y : F64) (hx : x.isNaN = false) (hy : y.isNaN = false) :
    y.le x = true ∨ x.lt y = true := by
  cases h : x.lt y
  · exact Or.inl (F64.le_of_lt_false x y hx hy h)
  · exact Or.inr rfl

theorem wrap64_of_range (i : Int) (h1 : -9223372036854775808 ≤ i)
    (h2 : i < 9223372036854775808) : wrap64 i = i := by
  unfold wrap64
  omega

theorem singleState_Values (name : String) (m : Measurement) :
    (singleState name m).Values name = some 0 := by
  simp [singleState]

theorem singleState_cell (name : String) (m : Measurement) :
    (singleState name m).cell 0 = some m := by
  simp [singleState]

/-! ## C1: the submitted sample always becomes the stored baseline -/

/-- C1: when `key` has a stored Measurement `m`, `GetRate key timestamp value`
returns (it does not panic) and afterwards the Measurement stored for `key` is
`m` with `Timestamp = timestamp` and `Value = value`, whatever the outcome of
the call; hence a following call `GetRate key t2 v2` computes its result from
the gap `t2 - timestamp` and the previous value `value`. -/
theorem GetRate_stores_sample (s : State) (key : String) (p : Ptr) (m : Measurement)
    (timestamp : Int) (value : F64)
    (hk : s.Values key = some p) (hp : s.cell p = some m) :
    ∃ r s1, GetRate s key timestamp value = some (r, s1) ∧
      s1.Values key = some p ∧
      s1.cell p = some { m with Timestamp := timestamp, Value := value } ∧
      s1.lookup key = some { m with Timestamp := timestamp, Value := value } ∧
      ∀ (t2 : Int) (v2 : F64), ∃ s2, GetRate s1 key t2 v2 =
        some (rateOf { m with Timestamp := t2, Value := v2 } value
                (wrap64 (t2 - timestamp)) v2, s2) := by
  refine ⟨_, _, GetRate_stored s key p m timestamp value hk hp, hk, by simp [State.setCell],
    by simp [State.lookup, State.setCell, hk], fun t2 v2 => ?_⟩
  exact ⟨_, GetRate_stored _ key p { m with Timestamp := timestamp, Value := value } t2 v2 hk
    (by simp [State.setCell])⟩

/-- Gap rejection followed by a fresh sample: interval 60, baseline at time 0;
the sample at time 400 is rejected, the one at time 430 is measured against it
and gives `(400 - 250) / 30 = 5`. -/
theorem GetRate_stores_sample_witness :
    ((singleState "k" (exMeasurement (F64.ofInt 100))).Values "k" = some 0 ∧
      (singleState "k" (exMeasurement (F64.ofInt 100))).cell 0
        = some (exMeasurement (F64.ofInt 100))) ∧
    (GetRate (singleState "k" (exMeasurement (F64.ofInt 100))) "k" 400 (F64.ofInt 250)).map
        (fun r => r.1.2) = some (some (GetRateError.gapTooLarge 400)) ∧
    ((GetRate (singleState "k" (exMeasurement (F64.ofInt 100))) "k" 400 (F64.ofInt 250)).bind
        (fun r => (GetRate r.2 "k" 430 (F64.ofInt 400)).map Prod.fst))
      = some (F64.ofInt 5, none) := by
  refine ⟨⟨singleState_Values _ _, singleState_cell _ _⟩, ?_, ?_⟩
  · rw [GetRate_stored _ "k" 0 _ 400 _ (singleState_Values _ _) (singleState_cell _ _)]
    decide!
  · obtain ⟨r, s1, h1, -, -, -, h2⟩ :=
      GetRate_stores_sample (singleState "k" (exMeasurement (F64.ofInt 100))) "k" 0
        (exMeasurement (F64.ofInt 100)) 400 (F64.ofInt 250)
        (singleState_Values _ _) (singleState_cell _ _)
    obtain ⟨s2, h3⟩ := h2 430 (F64.ofInt 400)
    rw [h1]
    show Option.map Prod.fst (GetRate s1 "k" 430 (F64.ofInt 400)) = _
    rw [h3]
    simp only [Option.map_some']
    decide!

/-! ## C2: unknown key -/

/-- C2: for a key with no entry in the map, `GetRate` fails with the
non-existent-key error, the returned rate is NaN, and the state (the map
included) is returned unchanged. -/
theorem GetRate_unknown_key (s : State) (key : String) (timestamp : Int) (value : F64)
    (hk : s.Values key = none) :
    GetRate s key timestamp value
        = some ((F64.mathNaN, some (GetRateError.nonExistentKey key)), s) ∧
      F64.mathNaN.isNaN = true := by
  refine ⟨by simp [GetRate, hk], by decide⟩

theorem GetRate_unknown_key_witness :
    emptyState.Values "eth0" = none ∧
    (GetRate emptyState "eth0" 10 (F64.ofInt 5)
        = some ((F64.mathNaN, some (GetRateError.nonExistentKey "eth0")), emptyState) ∧
      F64.mathNaN.isNaN = true) :=
  ⟨rfl, GetRate_unknown_key emptyState "eth0" 10 (F64.ofInt 5) rfl⟩

/-! ## C3: the gap check -/

/-- C3: for a key with a stored Measurement `m`, `GetRate` returns, and it fails
with the gap-too-large error exactly when `gap >= 6 * Interval`, where
`gap = timestamp - m.Timestamp` and the product are the `int64` values the code
computes; the condition mentions neither the submitted value, nor the stored
value, nor the bounds. When neither `int64` operation overflows this is the
comparison of the exact difference with the exact product. -/
theorem GetRate_gapTooLarge_iff (s : State) (key : String) (p : Ptr) (m : Measurement)
    (timestamp : Int) (value : F64)
    (hk : s.Values key = some p) (hp : s.cell p = some m) :
    ∃ r s1, GetRate s key timestamp value = some (r, s1) ∧
      (r.2 = some (GetRateError.gapTooLarge (wrap64 (timestamp - m.Timestamp))) ↔
        wrap64 (m.Interval * 6) ≤ wrap64 (timestamp - m.Timestamp)) ∧
      ((∃ g, r.2 = some (GetRateError.gapTooLarge g)) ↔
        wrap64 (m.Interval * 6) ≤ wrap64 (timestamp - m.Timestamp)) ∧
      (-9223372036854775808 ≤ timestamp - m.Timestamp →
        timestamp - m.Timestamp < 9223372036854775808 →
        -9223372036854775808 ≤ m.Interval * 6 →
        m.Interval * 6 < 9223372036854775808 →
        ((∃ g, r.2 = some (GetRateError.gapTooLarge g)) ↔
          6 * m.Interval ≤ timestamp - m.Timestamp)) := by
  have key_iff : (∃ g, (rateOf { m with Timestamp := timestamp, Value := value } m.Value
        (wrap64 (timestamp - m.Timestamp)) value).2 = some (GetRateError.gapTooLarge g)) ↔
      wrap64 (m.Interval * 6) ≤ wrap64 (timestamp - m.Timestamp) := by
    unfold rateOf
    by_cases hg : wrap64 (m.Interval * 6) ≤ wrap64 (timestamp - m.Timestamp)
    · simp [hg]
    · simp only [hg, if_false, iff_false]
      split_ifs <;> simp
  refine ⟨_, _, GetRate_stored s key p m timestamp value hk hp, ?_, key_iff, ?_⟩
  · constructor
    · intro h
      exact key_iff.mp ⟨_, h⟩
    · intro h
      simp [rateOf, h]
  · intro h1 h2 h3 h4
    rw [key_iff, wrap64_of_range _ h1 h2, wrap64_of_range _ h3 h4]
    constructor <;> intro h <;> omega

/-- With interval 60 a gap of 360 is rejected as too large and a gap of 359 is not. -/
theorem GetRate_gapTooLarge_iff_witness :
    ((singleState "k" (exMeasurement (F64.ofInt 100))).Values "k" = some 0 ∧
      (singleState "k" (exMeasurement (F64.ofInt 100))).cell 0
        = some (exMeasurement (F64.ofInt 100))) ∧
    (∃ g, ((GetRate (singleState "k" (exMeasurement (F64.ofInt 100))) "k" 360
        (F64.ofInt 100)).map (fun r => r.1.2)) = some (some (GetRateError.gapTooLarge g))) ∧
    ¬ (∃ g, ((GetRate (singleState "k" (exMeasurement (F64.ofInt 100))) "k" 359
        (F64.ofInt 100)).map (fun r => r.1.2)) = some (some (GetRateError.gapTooLarge g))) := by
  refine ⟨⟨singleState_Values _ _, singleState_cell _ _⟩, ?_, ?_⟩
  · obtain ⟨r, s1, h, -, h2, -⟩ :=
      GetRate_gapTooLarge_iff (singleState "k" (exMeasurement (F64.ofInt 100))) "k" 0
        (exMeasurement (F64.ofInt 100)) 360 (F64.ofInt 100)
        (singleState_Values _ _) (singleState_cell _ _)
    obtain ⟨g, hg⟩ := h2.mpr (by decide)
    exact ⟨g, by rw [h]; simp [hg]⟩
  · obtain ⟨r, s1, h, -, h2, -⟩ :=
      GetRate_gapTooLarge_iff (singleState "k" (exMeasurement (F64.ofInt 100))) "k" 0
        (exMeasurement (F64.ofInt 100)) 359 (F64.ofInt 100)
        (singleState_Values _ _) (singleState_cell _ _)
    rintro ⟨g, hg⟩
    rw [h] at hg
    have h3 : wrap64 ((exMeasurement (F64.ofInt 100)).Interval * 6)
        ≤ wrap64 (359 - (exMeasurement (F64.ofInt 100)).Timestamp) :=
      h2.mp ⟨g, by simpa using hg⟩
    revert h3
    decide

/-! ## C4: NaN values -/

/-- C4: for a key with a stored Measurement and a gap below `6 * Interval`, if
the submitted value or the stored previous value is NaN, `GetRate` fails with
the NaN error, the returned rate is the NaN placeholder (no rate is computed),
and the submitted value, NaN included, is the stored `Value` afterwards. -/
theorem GetRate_nan_rejected (s : State) (key : String) (p : Ptr) (m : Measurement)
    (timestamp : Int) (value : F64)
    (hk : s.Values key = some p) (hp : s.cell p = some m)
    (hgap : wrap64 (timestamp - m.Timestamp) < wrap64 (m.Interval * 6))
    (hnan : value.isNaN = true ∨ m.Value.isNaN = true) :
    ∃ s1, GetRate s key timestamp value
        = some ((F64.mathNaN, some (GetRateError.nanValues value m.Value)), s1) ∧
      F64.mathNaN.isNaN = true ∧
      s1.lookup key = some { m with Timestamp := timestamp, Value := value } := by
  have hg : ¬ wrap64 (m.Interval * 6) ≤ wrap64 (timestamp - m.Timestamp) := not_le.mpr hgap
  have hn : (value.isNaN || m.Value.isNaN) = true := by
    rcases hnan with h | h <;> simp [h]
  have hr : rateOf { m with Timestamp := timestamp, Value := value } m.Value
      (wrap64 (timestamp - m.Timestamp)) value
        = (F64.mathNaN, some (GetRateError.nanValues value m.Value)) := by
    simp only [rateOf, hg, if_false, hn, if_true]
  have hnan0 : F64.mathNaN.isNaN = true := by decide
  rw [GetRate_stored s key p m timestamp value hk hp, hr]
  exact ⟨_, rfl, hnan0, by simp [State.lookup, State.setCell, hk]⟩

/-- A NaN sample against a numeric baseline: rejected, and the NaN is stored. -/
theorem GetRate_nan_rejected_witness :
    ((singleState "k" (exMeasurement (F64.ofInt 100))).Values "k" = some 0 ∧
      (singleState "k" (exMeasurement (F64.ofInt 100))).cell 0
        = some (exMeasurement (F64.ofInt 100)) ∧
      wrap64 (10 - (exMeasurement (F64.ofInt 100)).Timestamp)
        < wrap64 ((exMeasurement (F64.ofInt 100)).Interval * 6) ∧
      F64.qNaN.isNaN = true) ∧
    ∃ s1, GetRate (singleState "k" (exMeasurement (F64.ofInt 100))) "k" 10 F64.qNaN
        = some ((F64.mathNaN, some (GetRateError.nanValues F64.qNaN
            (exMeasurement (F64.ofInt 100)).Value)), s1) ∧
      F64.mathNaN.isNaN = true ∧
      s1.lookup "k" = some { exMeasurement (F64.ofInt 100) with Timestamp := 10, Value := F64.qNaN } :=
  ⟨⟨singleState_Values _ _, singleState_cell _ _, by decide, by decide⟩,
   GetRate_nan_rejected (singleState "k" (exMeasurement (F64.ofInt 100))) "k" 0
     (exMeasurement (F64.ofInt 100)) 10 F64.qNaN
     (singleState_Values _ _) (singleState_cell _ _) (by decide) (Or.inl (by decide))⟩

/-! ## C5: the rate formula -/

/-- C5: whenever `GetRate` succeeds for a key with stored Measurement `m`, the
value and the previous value are not NaN, the gap is below `6 * Interval`, and
the returned rate is `delta / gap` in float64 arithmetic, where
`delta = value - previous` if `value >= previous`,
`delta = float64(MaxUint64) - previous + value` if `value < previous` and
`previous > MaxUint32`, and `delta = float64(MaxUint32) - previous + value` if
`value < previous` and `previous <= MaxUint32`; the cases cover every success.
The width is chosen by comparing the previous value only. The statement also
covers `gap = 0`. -/
theorem GetRate_success_formula (s : State) (key : String) (p : Ptr) (m : Measurement)
    (timestamp : Int) (value : F64) (r : F64) (s1 : State)
    (hk : s.Values key = some p) (hp : s.cell p = some m)
    (hok : GetRate s key timestamp value = some ((r, none), s1)) :
    value.isNaN = false ∧ m.Value.isNaN = false ∧
    wrap64 (timestamp - m.Timestamp) < wrap64 (m.Interval * 6) ∧
    (m.Value.le value = true ∨ value.lt m.Value = true) ∧
    ((F64.ofInt MaxUint32).lt m.Value = true ∨ m.Value.le (F64.ofInt MaxUint32) = true) ∧
    (m.Value.le value = true →
      r = F64.div (F64.sub value m.Value) (F64.ofInt (wrap64 (timestamp - m.Timestamp)))) ∧
    (value.lt m.Value = true → (F64.ofInt MaxUint32).lt m.Value = true →
      r = F64.div (F64.add (F64.sub (F64.ofInt MaxUint64) m.Value) value)
            (F64.ofInt (wrap64 (timestamp - m.Timestamp)))) ∧
    (value.lt m.Value = true → m.Value.le (F64.ofInt MaxUint32) = true →
      r = F64.div (F64.add (F64.sub (F64.ofInt MaxUint32) m.Value) value)
            (F64.ofInt (wrap64 (timestamp - m.Timestamp)))) := by
  rw [GetRate_stored s key p m timestamp value hk hp] at hok
  have hr : rateOf { m with Timestamp := timestamp, Value := value } m.Value
      (wrap64 (timestamp - m.Timestamp)) value = (r, none) := by
    have := Option.some.inj hok
    exact congrArg Prod.fst this
  unfold rateOf at hr
  by_cases hg : wrap64 (m.Interval * 6) ≤ wrap64 (timestamp - m.Timestamp)
  · simp [hg] at hr
  by_cases hn : (value.isNaN || m.Value.isNaN) = true
  · simp [hg, hn] at hr
  by_cases hb : (m.MaxValue.lt (rawRate m.Value (wrap64 (timestamp - m.Timestamp)) value)
      || (rawRate m.Value (wrap64 (timestamp - m.Timestamp)) value).lt m.MinValue) = true
  · simp only [hg, hn, hb, if_false, if_true] at hr
    simp at hr
  simp only [hg, hn, hb, if_false] at hr
  have hrate : r = rawRate m.Value (wrap64 (timestamp - m.Timestamp)) value :=
    (congrArg Prod.fst hr).symm
  have hv : value.isNaN = false := by
    cases h : value.isNaN <;> simp [h] at hn ⊢
  have hl : m.Value.isNaN = false := by
    cases h : m.Value.isNaN <;> simp [h] at hn ⊢
  have h32 : (F64.ofInt MaxUint32).isNaN = false := by decide!
  refine ⟨hv, hl, not_le.mp hg, F64.le_or_lt value m.Value hv hl, ?_, ?_, ?_, ?_⟩
  · exact (F64.le_or_lt (F64.ofInt MaxUint32) m.Value h32 hl).symm
  · intro h
    rw [hrate, rawRate, adjustedValue, F64.lt_false_of_le value m.Value h]
    simp
  · intro h1 h2
    rw [hrate, rawRate, adjustedValue, h1, h2]
    simp
  · intro h1 h2
    rw [hrate, rawRate, adjustedValue, h1, F64.lt_false_of_le _ _ h2]
    simp

/-- The 64-bit branch: previous value `2^32 + 100`, value 50, gap 10, with an
upper bound of `10^19` so that the rate is accepted. -/
theorem GetRate_success_formula_witness :
    ((singleState "k" exWide).Values "k" = some 0 ∧
      (singleState "k" exWide).cell 0 = some exWide ∧
      (F64.ofInt 50).lt exWide.Value = true ∧
      (F64.ofInt MaxUint32).lt exWide.Value = true) ∧
    (GetRate (singleState "k" exWide) "k" 10 (F64.ofInt 50)).map Prod.fst
      = some (F64.div (F64.add (F64.sub (F64.ofInt MaxUint64) (F64.ofInt 4294967396))
          (F64.ofInt 50)) (F64.ofInt 10), none) := by
  have hlt : (F64.ofInt 50).lt exWide.Value = true := by decide!
  have h32 : (F64.ofInt MaxUint32).lt exWide.Value = true := by decide!
  refine ⟨⟨singleState_Values _ _, singleState_cell _ _, hlt, h32⟩, ?_⟩
  have hnone : (rateOf { exWide with Timestamp := 10, Value := F64.ofInt 50 } exWide.Value
      (wrap64 (10 - exWide.Timestamp)) (F64.ofInt 50)).2 = none := by decide!
  have hok : GetRate (singleState "k" exWide) "k" 10 (F64.ofInt 50)
      = some (((rateOf { exWide with Timestamp := 10, Value := F64.ofInt 50 } exWide.Value
          (wrap64 (10 - exWide.Timestamp)) (F64.ofInt 50)).1, none),
          (singleState "k" exWide).setCell 0
            { exWide with Timestamp := 10, Value := F64.ofInt 50 }) := by
    rw [GetRate_stored _ "k" 0 exWide 10 _ (singleState_Values _ _) (singleState_cell _ _),
      ← hnone]
  have hform := (GetRate_success_formula _ "k" 0 exWide 10 (F64.ofInt 50) _ _
    (singleState_Values _ _) (singleState_cell _ _) hok).2.2.2.2.2.2.1 hlt h32
  have hgap : wrap64 (10 - exWide.Timestamp) = 10 := by decide
  have hval : exWide.Value = F64.ofInt 4294967396 := by simp only [exWide]
  rw [hok, Option.map_some']
  show some ((rateOf _ _ _ _).1, none) = _
  rw [hform, hgap, hval]

/-! ## C8: Add overwrites -/

/-- C8: `Add key m` makes `m` the stored Measurement for `key` whether or not
one existed; after `Add key m1` and then `Add key m2` the key refers to `m2`
(the whole object, nothing of `m1`), every other key keeps its entry, the
Measurement objects are untouched, and the state equals that of `Add key m2`
alone. -/
theorem Add_overwrites (s : State) (key : String) (m1 m2 : Ptr) :
    (Add s key m2).Values key = some m2 ∧
    (Add (Add s key m1) key m2).Values key = some m2 ∧
    (Add (Add s key m1) key m2).lookup key = s.cell m2 ∧
    (∀ k, (Add (Add s key m1) key m2).Values k = if k = key then some m2 else s.Values k) ∧
    (Add (Add s key m1) key m2).cell = s.cell ∧
    Add (Add s key m1) key m2 = Add s key m2 := by
  refine ⟨by simp [Add], by simp [Add], by simp [Add, State.lookup], ?_, rfl, by simp [Add]⟩
  intro k
  by_cases h : k = key
  · simp [Add, h]
  · simp [Add, h, Function.update_noteq h]

/-! ## C9: calls on distinct keys commute -/

/-- C9: for two keys stored as distinct Measurements (which forces the keys to
differ), `GetRate k1 t1 v1` followed by `GetRate k2 t2 v2` gives the same two
results and the same final state as the two calls in the opposite order; the
call on `k1` leaves the map and the Measurement of `k2` unchanged, changes no
other cell, and keeps `Interval`, `MinValue` and `MaxValue` of `k1`. -/
theorem GetRate_distinct_keys_commute (s : State) (k1 k2 : String) (p1 p2 : Ptr)
    (m1 m2 : Measurement) (t1 t2 : Int) (v1 v2 : F64)
    (h1 : s.Values k1 = some p1) (h2 : s.Values k2 = some p2) (hne : p1 ≠ p2)
    (c1 : s.cell p1 = some m1) (c2 : s.cell p2 = some m2) :
    k1 ≠ k2 ∧
    ∃ r1 r2 sa sb sf,
      GetRate s k1 t1 v1 = some (r1, sa) ∧ GetRate sa k2 t2 v2 = some (r2, sf) ∧
      GetRate s k2 t2 v2 = some (r2, sb) ∧ GetRate sb k1 t1 v1 = some (r1, sf) ∧
      sa.Values = s.Values ∧ sa.next = s.next ∧
      sa.lookup k2 = some m2 ∧
      sa.cell = Function.update s.cell p1
        (some { Interval := m1.Interval, MinValue := m1.MinValue, MaxValue := m1.MaxValue,
                Timestamp := t1, Value := v1 }) := by
  have hk : k1 ≠ k2 := by
    rintro rfl
    rw [h1] at h2
    exact hne (Option.some.inj h2)
  have eab := GetRate_stored (s.setCell p1 { m1 with Timestamp := t1, Value := v1 })
    k2 p2 m2 t2 v2 h2 (by simp [State.setCell, Function.update_noteq hne.symm, c2])
  have eba := GetRate_stored (s.setCell p2 { m2 with Timestamp := t2, Value := v2 })
    k1 p1 m1 t1 v1 h1 (by simp [State.setCell, Function.update_noteq hne, c1])
  refine ⟨hk, _, _, _, _, _, GetRate_stored s k1 p1 m1 t1 v1 h1 c1, eab,
    GetRate_stored s k2 p2 m2 t2 v2 h2 c2, ?_, rfl, rfl, ?_, rfl⟩
  · rw [eba]
    simp [State.setCell, Function.update_comm hne]
  · simp [State.lookup, State.setCell, h2, Function.update_noteq hne.symm, c2]

/-- Two interfaces tracked side by side: the order of the two calls is irrelevant. -/
theorem GetRate_distinct_keys_commute_witness :
    ((twoState "a" "b" (exMeasurement (F64.ofInt 100)) (exBounded (F64.ofInt 7))).Values "a"
        = some 0 ∧
      (twoState "a" "b" (exMeasurement (F64.ofInt 100)) (exBounded (F64.ofInt 7))).Values "b"
        = some 1 ∧
      (0 : Ptr) ≠ 1 ∧
      (twoState "a" "b" (exMeasurement (F64.ofInt 100)) (exBounded (F64.ofInt 7))).cell 0
        = some (exMeasurement (F64.ofInt 100)) ∧
      (twoState "a" "b" (exMeasurement (F64.ofInt 100)) (exBounded (F64.ofInt 7))).cell 1
        = some (exBounded (F64.ofInt 7))) ∧
    "a" ≠ "b" ∧
    ((GetRate (twoState "a" "b" (exMeasurement (F64.ofInt 100)) (exBounded (F64.ofInt 7)))
        "a" 10 (F64.ofInt 130)).bind
      (fun x => (GetRate x.2 "b" 20 (F64.ofInt 9)).map (fun y => (x.1, y.1))))
    = ((GetRate (twoState "a" "b" (exMeasurement (F64.ofInt 100)) (exBounded (F64.ofInt 7)))
        "b" 20 (F64.ofInt 9)).bind
      (fun y => (GetRate y.2 "a" 10 (F64.ofInt 130)).map (fun x => (x.1, y.1)))) := by
  have h1 : (twoState "a" "b" (exMeasurement (F64.ofInt 100)) (exBounded (F64.ofInt 7))).Values
      "a" = some 0 := by simp [twoState]
  have h2 : (twoState "a" "b" (exMeasurement (F64.ofInt 100)) (exBounded (F64.ofInt 7))).Values
      "b" = some 1 := by simp [twoState]
  have c1 : (twoState "a" "b" (exMeasurement (F64.ofInt 100)) (exBounded (F64.ofInt 7))).cell 0
      = some (exMeasurement (F64.ofInt 100)) := by simp [twoState]
  have c2 : (twoState "a" "b" (exMeasurement (F64.ofInt 100)) (exBounded (F64.ofInt 7))).cell 1
      = some (exBounded (F64.ofInt 7)) := by simp [twoState]
  obtain ⟨hne, r1, r2, sa, sb, sf, e1, e2, e3, e4, -⟩ :=
    GetRate_distinct_keys_commute _ "a" "b" 0 1 _ _ 10 20 (F64.ofInt 130) (F64.ofInt 9)
      h1 h2 (by decide) c1 c2
  refine ⟨⟨h1, h2, by decide, c1, c2⟩, hne, ?_⟩
  rw [e1, e3]
  show Option.map _ (GetRate sa "b" 20 (F64.ofInt 9)) = Option.map _ (GetRate sb "a" 10 (F64.ofInt 130))
  rw [e2, e4]
  rfl

/-! ## C6: the 32-bit wraparound example -/

/-- C6: with interval 60, bounds 0 and 10^15, stored value 4294967290, the call
with value 5 and gap 10 succeeds, but the code computes
`delta = 4294967295 - 4294967290 + 5 = 10` and returns the rate `1.0`; it does
not compute `delta = 11` nor return `1.1` (the float64 nearest to 11/10). -/
theorem GetRate_wrap32_example :
    adjustedValue (F64.ofInt 4294967290) (F64.ofInt 5) = F64.ofInt 10 ∧
    (GetRate (singleState "k" (exMeasurement (F64.ofInt 4294967290))) "k" 10 (F64.ofInt 5)).map
        Prod.fst = some (F64.ofInt 1, none) ∧
    F64.ofInt 10 ≠ F64.ofInt 11 ∧
    F64.ofInt 1 ≠ F64.div (F64.ofInt 11) (F64.ofInt 10) := by
  refine ⟨by decide!, ?_, by decide!, by decide!⟩
  rw [GetRate_stored _ "k" 0 _ 10 _ (singleState_Values _ _) (singleState_cell _ _),
    Option.map_some']
  decide!

/-! ## C7: the range check -/

/-- C7: with bounds 0 and 100 (so `MinValue <= MaxValue`), interval 60 and
stored value `+Inf`, the sample `+Inf` at gap 10 passes the gap check
(`0 < 10 < 360`) and the NaN check; the code computes the rate
`(Inf - Inf) / 10 = NaN`, neither comparison of the range check holds for it,
and `GetRate` returns that NaN with a nil error, although `0 <= r <= 100` is
false for it. -/
theorem GetRate_returns_nan_rate :
    (F64.inf false).isNaN = false ∧
    wrap64 (10 - (exBounded (F64.inf false)).Timestamp) ≠ 0 ∧
    wrap64 (10 - (exBounded (F64.inf false)).Timestamp)
      < wrap64 ((exBounded (F64.inf false)).Interval * 6) ∧
    (exBounded (F64.inf false)).MinValue.le (exBounded (F64.inf false)).MaxValue = true ∧
    (rawRate (F64.inf false) 10 (F64.inf false)).isNaN = true ∧
    (GetRate (singleState "k" (exBounded (F64.inf false))) "k" 10 (F64.inf false)).map
        (fun x => (x.1.1.isNaN, x.1.2)) = some (true, none) ∧
    (GetRate (singleState "k" (exBounded (F64.inf false))) "k" 10 (F64.inf false)).map
        (fun x => (exBounded (F64.inf false)).MinValue.le x.1.1
          && x.1.1.le (exBounded (F64.inf false)).MaxValue) = some false := by
  refine ⟨by decide, by decide, by decide, by decide!, by decide!, ?_, ?_⟩
  · rw [GetRate_stored _ "k" 0 _ 10 _ (singleState_Values _ _) (singleState_cell _ _),
      Option.map_some']
    decide!
  · rw [GetRate_stored _ "k" 0 _ 10 _ (singleState_Values _ _) (singleState_cell _ _),
      Option.map_some']
    decide!

/-! ## C10: the tracker key used by ProcessRates -/

theorem foldl_append_init (l : List String) (init : String) :
    l.foldl (fun x y => x ++ y) init = init ++ l.foldl (fun x y => x ++ y) "" := by
  induction l generalizing init with
  | nil => simp
  | cons a t ih =>
    simp only [List.foldl_cons]
    rw [ih (init ++ a), ih ("" ++ a), String.empty_append, String.append_assoc]

theorem ratekey_foldl (md : String → Option Val) (keys : List String) (init : String) :
    keys.foldl
        (fun rk metakey =>
          match md metakey with
          | some (Val.str key) => rk ++ key
          | _ => rk) init
      = init ++ (keys.filterMap
          (fun metakey =>
            match md metakey with
            | some (Val.str key) => some key
            | _ => none)).foldl (fun x y => x ++ y) "" := by
  induction keys generalizing init with
  | nil => simp
  | cons k t ih =>
    simp only [List.foldl_cons, List.filterMap_cons]
    rw [ih]
    rcases h : md k with _ | v
    · simp
    · cases v <;> simp
      rename_i str
      rw [foldl_append_init _ str]
      exact String.append_assoc _ _ _

theorem rateField_eq (r : F64 × Option GetRateError) :
    rateField r = if r.2.isNone then Val.float64 r.1 else Val.nil := by
  rcases r with ⟨x, _ | e⟩ <;> rfl

theorem GetRate_Values (s s1 : State) (name : String) (timestamp : Int) (value : F64)
    (r : F64 × Option GetRateError) (h : GetRate s name timestamp value = some (r, s1)) :
    s1.Values = s.Values := by
  unfold GetRate at h
  rcases hv : s.Values name with _ | p
  · simp only [hv] at h
    have := Option.some.inj h
    rw [← (Prod.mk.inj this).2]
  · simp only [hv] at h
    rcases hc : s.cell p with _ | m
    · simp [hc] at h
    · simp only [hc] at h
      have := Option.some.inj h
      rw [← (Prod.mk.inj this).2]
      rfl

theorem processRatesLoop_skip (rk : String) (ts : Int) (measurement : String)
    (rest : List String) (values : String → Option Val) (rc : State)
    (h : ∀ value, values measurement ≠ some (Val.int64 value)) :
    processRatesLoop rk ts (measurement :: rest) values rc
      = processRatesLoop rk ts rest values rc := by
  rw [processRatesLoop]
  split
  · rename_i value hv
    exact absurd hv (h value)
  · rfl

theorem processRatesLoop_new (rk : String) (ts : Int) (measurement : String)
    (rest : List String) (values : String → Option Val) (rc : State) (value : Int)
    (hv : values measurement = some (Val.int64 value)) (hnew : rc.Values rk = none) :
    processRatesLoop rk ts (measurement :: rest) values rc
      = processRatesLoop rk ts rest (Function.update values measurement (some Val.nil))
          (withBaseline rc rk (firstBaseline ts value)) := by
  rw [processRatesLoop]
  simp only [hv, hnew]
  rfl

theorem processRatesLoop_stored (rk : String) (ts : Int) (measurement : String)
    (rest : List String) (values : String → Option Val) (rc : State) (value : Int)
    (p : Ptr) (m : Measurement)
    (hv : values measurement = some (Val.int64 value)) (hk : rc.Values rk = some p)
    (hp : rc.cell p = some m) :
    processRatesLoop rk ts (measurement :: rest) values rc
      = processRatesLoop rk ts rest
          (Function.update values measurement
            (some (if (rateOf { m with Timestamp := ts, Value := F64.ofInt value } m.Value
                    (wrap64 (ts - m.Timestamp)) (F64.ofInt value)).2.isNone
              then Val.float64 (rateOf { m with Timestamp := ts, Value := F64.ofInt value }
                    m.Value (wrap64 (ts - m.Timestamp)) (F64.ofInt value)).1
              else Val.nil)))
          (rc.setCell p { m with Timestamp := ts, Value := F64.ofInt value }) := by
  rw [processRatesLoop]
  simp only [hv, hk, GetRate_stored rc rk p m ts (F64.ofInt value) hk hp, rateField_eq]

theorem processRatesLoop_Values (rk : String) (ts : Int) (l : List String) :
    ∀ (values : String → Option Val) (rc : State) (vals : String → Option Val) (rc1 : State),
      processRatesLoop rk ts l values rc = some (vals, rc1) →
      ∀ k, k ≠ rk → rc1.Values k = rc.Values k := by
  induction l with
  | nil =>
    intro values rc vals rc1 h k _
    rw [processRatesLoop] at h
    rw [← (Prod.mk.inj (Option.some.inj h)).2]
  | cons measurement rest ih =>
    intro values rc vals rc1 h k hk
    by_cases hv : ∃ value, values measurement = some (Val.int64 value)
    · obtain ⟨value, hv⟩ := hv
      rcases hnew : rc.Values rk with _ | p
      · rw [processRatesLoop_new rk ts measurement rest values rc value hv hnew] at h
        rw [ih _ _ _ _ h k hk]
        simp [withBaseline, Function.update_noteq hk]
      · rw [processRatesLoop] at h
        simp only [hv, hnew] at h
        rcases hg : GetRate rc rk ts (F64.ofInt value) with _ | ⟨r, rc2⟩
        · simp [hg] at h
        · simp only [hg] at h
          rw [ih _ _ _ _ h k hk, GetRate_Values rc rc2 rk ts _ r hg]
    · rw [processRatesLoop_skip rk ts measurement rest values rc
        (fun value hval => hv ⟨value, hval⟩)] at h
      exact ih _ _ _ _ h k hk

/-- C10, as stated, fails for a record without node metadata: with `Type`
`interface` and the configured metadata key `intf` holding `ge-0/0/0`, the
concatenation of the record's `Type` and metadata strings is
`interfacege-0/0/0`, but the key built by `ProcessRates` is the empty string. -/
theorem ProcessRates_key_counterexample :
    exNoNode.Metadata "node" = none ∧
    exNoNode.Typ ++ (metaStrings exServer exNoNode).foldl (fun x y => x ++ y) ""
      = "interfacege-0/0/0" ∧
    ratekey exServer exNoNode = "" ∧
    ratekey exServer exNoNode
      ≠ exNoNode.Typ ++ (metaStrings exServer exNoNode).foldl (fun x y => x ++ y) "" := by
  decide

/-- C10, amended: the tracker key built by `ProcessRates` is, for a record
whose node metadata is the string `node`, the record's `Type`, followed by
`node`, followed by the string values of the configured `Metadata` keys in
configured order (keys that are absent or not strings are skipped), and it is
the empty string for a record whose node metadata is absent or not a string.
The key depends neither on `Rates` nor on the field values, and every field
listed in `Rates` is submitted under it: a listed field that is not an int64 is
skipped; an int64 field met while the key has no entry is set to nil and its
value becomes the baseline under the key; an int64 field met while the key has
an entry is replaced by the outcome of `GetRate` on that entry (the rate, or nil
on an error), which also makes its value the new baseline; in each case the
remaining fields are processed the same way; and no other key of the tracker
is created or changed. Consequently, for two distinct int64 rate fields `a`,
`b` with `Rates = [a, b]` and no entry yet for the key, `ProcessRates` returns,
`a` is set to nil after its raw value was stored as the baseline, and `b` is
set to the outcome of `GetRate` computed against the value of `a` with gap 0;
the Measurement left under the key holds the value of `b`. -/
theorem ProcessRates_shared_key (server : TSDS) (data : Data) (rc : State) :
    (∀ node, data.Metadata "node" = some (Val.str node) →
      ratekey server data
        = data.Typ ++ node ++ (metaStrings server data).foldl (fun x y => x ++ y) "") ∧
    ((∀ node, data.Metadata "node" ≠ some (Val.str node)) → ratekey server data = "") ∧
    (∀ rates values,
      ratekey { server with Rates := rates } { data with Values := values }
        = ratekey server data) ∧
    (server.Rates = [] → ProcessRates server data rc = some (data.Values, rc)) ∧
    (∀ measurement rest, server.Rates = measurement :: rest →
      ((∀ value, data.Values measurement ≠ some (Val.int64 value)) →
        ProcessRates server data rc = ProcessRates { server with Rates := rest } data rc) ∧
      (∀ value, data.Values measurement = some (Val.int64 value) →
        rc.Values (ratekey server data) = none →
        ProcessRates server data rc
          = ProcessRates { server with Rates := rest }
              { data with Values := Function.update data.Values measurement (some Val.nil) }
              (withBaseline rc (ratekey server data) (firstBaseline data.Timestamp value))) ∧
      (∀ value p m, data.Values measurement = some (Val.int64 value) →
        rc.Values (ratekey server data) = some p → rc.cell p = some m →
        ProcessRates server data rc
          = ProcessRates { server with Rates := rest }
              { data with
                Values := Function.update data.Values measurement
                  (some (if (rateOf { m with Timestamp := data.Timestamp, Value := F64.ofInt value }
                          m.Value (wrap64 (data.Timestamp - m.Timestamp))
                          (F64.ofInt value)).2.isNone
                    then Val.float64
                      (rateOf { m with Timestamp := data.Timestamp, Value := F64.ofInt value }
                        m.Value (wrap64 (data.Timestamp - m.Timestamp)) (F64.ofInt value)).1
                    else Val.nil)) }
              (rc.setCell p { m with Timestamp := data.Timestamp, Value := F64.ofInt value }))) ∧
    (∀ vals rc1, ProcessRates server data rc = some (vals, rc1) →
      ∀ k, k ≠ ratekey server data → rc1.Values k = rc.Values k) ∧
    (∀ (a b : String) (va vb : Int), server.Rates = [a, b] → a ≠ b →
      data.Values a = some (Val.int64 va) → data.Values b = some (Val.int64 vb) →
      rc.Values (ratekey server data) = none →
      (∃ vals0 rc0, ProcessRates { server with Rates := [a] } data rc = some (vals0, rc0) ∧
          vals0 a = some Val.nil ∧
          rc0.lookup (ratekey server data) = some (firstBaseline data.Timestamp va)) ∧
      ∃ vals rc1, ProcessRates server data rc = some (vals, rc1) ∧
        vals a = some Val.nil ∧
        vals b = some
          (if (rateOf (firstBaseline data.Timestamp vb) (F64.ofInt va) 0 (F64.ofInt vb)).2.isNone
            then Val.float64
              (rateOf (firstBaseline data.Timestamp vb) (F64.ofInt va) 0 (F64.ofInt vb)).1
            else Val.nil) ∧
        rc1.lookup (ratekey server data) = some (firstBaseline data.Timestamp vb)) := by
  refine ⟨?_, ?_, fun _ _ => rfl, ?_, ?_, ?_, ?_⟩
  · intro node hnode
    simp only [ratekey, hnode, metaStrings]
    exact ratekey_foldl data.Metadata server.Metadata (data.Typ ++ node)
  · intro hno
    unfold ratekey
    split
    · rename_i node hnode
      exact absurd hnode (hno node)
    · rfl
  · intro hrates
    unfold ProcessRates
    rw [hrates, processRatesLoop]
  · intro measurement rest hrates
    refine ⟨?_, ?_, ?_⟩
    · intro hv
      show processRatesLoop (ratekey server data) data.Timestamp server.Rates data.Values rc
        = processRatesLoop (ratekey server data) data.Timestamp rest data.Values rc
      rw [hrates, processRatesLoop_skip _ _ _ _ _ _ hv]
    · intro value hv hnew
      show processRatesLoop (ratekey server data) data.Timestamp server.Rates data.Values rc
        = processRatesLoop (ratekey server data) data.Timestamp rest _ _
      rw [hrates, processRatesLoop_new _ _ _ _ _ _ value hv hnew]
    · intro value p m hv hk hp
      show processRatesLoop (ratekey server data) data.Timestamp server.Rates data.Values rc
        = processRatesLoop (ratekey server data) data.Timestamp rest _ _
      rw [hrates, processRatesLoop_stored _ _ _ _ _ _ value p m hv hk hp]
  · intro vals rc1 h k hk
    exact processRatesLoop_Values _ _ _ _ _ _ _ h k hk
  · intro a b va vb hrates hab ha hb hnew
    show (∃ vals0 rc0, processRatesLoop (ratekey server data) data.Timestamp [a] data.Values rc
        = some (vals0, rc0) ∧ _) ∧
      ∃ vals rc1, processRatesLoop (ratekey server data) data.Timestamp server.Rates
        data.Values rc = some (vals, rc1) ∧ _
    rw [hrates]
    generalize ratekey server data = rk at hnew ⊢
    have hs1v : (withBaseline rc rk (firstBaseline data.Timestamp va)).Values rk
        = some rc.next := by
      simp [withBaseline]
    have hs1c : (withBaseline rc rk (firstBaseline data.Timestamp va)).cell rc.next
        = some (firstBaseline data.Timestamp va) := by
      simp [withBaseline]
    have hb2 : Function.update data.Values a (some Val.nil) b = some (Val.int64 vb) := by
      rw [Function.update_noteq (Ne.symm hab), hb]
    have hgap : wrap64 (data.Timestamp - (firstBaseline data.Timestamp va).Timestamp) = 0 := by
      simp [firstBaseline, wrap64]
    have hm : ({ firstBaseline data.Timestamp va with
        Timestamp := data.Timestamp, Value := F64.ofInt vb } : Measurement)
          = firstBaseline data.Timestamp vb := by
      simp only [firstBaseline]
    have hval : (firstBaseline data.Timestamp va).Value = F64.ofInt va := by
      simp only [firstBaseline]
    rw [processRatesLoop_new rk _ a [b] _ _ va ha hnew,
      processRatesLoop_new rk _ a [] _ _ va ha hnew,
      processRatesLoop_stored rk _ b [] _ _ vb rc.next _ hb2 hs1v hs1c,
      hgap, hm, hval]
    simp only [processRatesLoop]
    refine ⟨⟨_, _, rfl, ?_, ?_⟩, _, _, rfl, ?_, ?_, ?_⟩
    · simp
    · simp [State.lookup, hs1v, hs1c]
    · simp [Function.update_noteq hab]
    · simp
    · simp [State.lookup, State.setCell, withBaseline]

/-- Records with node `rtr1`, interface `ge-0/0/0` and the rate fields `input`
and `output`: the key is `interfacertr1ge-0/0/0` (and the empty string for the
record without node). Seen for the first time with `input = 100`,
`output = 250`: `input` becomes nil (baseline) and `output` is measured against
the value of `input` with gap 0, giving `150 / 0 = +Inf`, out of range, so
`output` becomes nil. With `input = output = 100` the same measurement is
`0 / 0`, a NaN, which is stored as the rate of `output`. A later record
(60 seconds on, baseline 250, `input = 850`, `output = 1450`) gets the rate
`600 / 60 = 10` for `input`, and `output` is again measured against `input`
with gap 0 and becomes nil. -/
theorem ProcessRates_shared_key_witness :
    ((exData 100 250).Metadata "node" = some (Val.str "rtr1") ∧
      (∀ node, exNoNode.Metadata "node" ≠ some (Val.str node)) ∧
      exServer.Rates = ["input", "output"] ∧ "input" ≠ "output" ∧
      (exData 100 250).Values "input" = some (Val.int64 100) ∧
      (exData 100 250).Values "output" = some (Val.int64 250) ∧
      emptyState.Values (ratekey exServer (exData 100 250)) = none ∧
      exLater.Values "input" = some (Val.int64 850) ∧
      (singleState "interfacertr1ge-0/0/0" (firstBaseline 1000 250)).Values
        (ratekey exServer exLater) = some 0 ∧
      (singleState "interfacertr1ge-0/0/0" (firstBaseline 1000 250)).cell 0
        = some (firstBaseline 1000 250)) ∧
    ratekey exServer (exData 100 250) = "interfacertr1ge-0/0/0" ∧
    ratekey exServer exNoNode = "" ∧
    (ProcessRates exServer (exData 100 250) emptyState).map
        (fun r => (r.1 "input", r.1 "output")) = some (some Val.nil, some Val.nil) ∧
    (∃ x, (ProcessRates exServer (exData 100 100) emptyState).map
        (fun r => (r.1 "input", r.1 "output")) = some (some Val.nil, some (Val.float64 x)) ∧
      x.isNaN = true) ∧
    (ProcessRates exServer exLater
        (singleState "interfacertr1ge-0/0/0" (firstBaseline 1000 250))).map
        (fun r => (r.1 "input", r.1 "output"))
      = some (some (Val.float64 (F64.ofInt 10)), some Val.nil) := by
  have hnode : (exData 100 250).Metadata "node" = some (Val.str "rtr1") := by decide
  have hno : ∀ node, exNoNode.Metadata "node" ≠ some (Val.str node) := by
    intro node h
    have : exNoNode.Metadata "node" = none := by decide
    rw [this] at h
    exact Option.noConfusion h
  have ha : (exData 100 250).Values "input" = some (Val.int64 100) := by decide
  have hb : (exData 100 250).Values "output" = some (Val.int64 250) := by decide
  have ha2 : (exData 100 100).Values "input" = some (Val.int64 100) := by decide
  have hb2 : (exData 100 100).Values "output" = some (Val.int64 100) := by decide
  have hl : exLater.Values "input" = some (Val.int64 850) := by decide
  have hlk : (singleState "interfacertr1ge-0/0/0" (firstBaseline 1000 250)).Values
      (ratekey exServer exLater) = some 0 := by decide
  refine ⟨⟨hnode, hno, rfl, by decide, ha, hb, rfl, hl, hlk, singleState_cell _ _⟩,
    ?_, ?_, ?_, ?_, ?_⟩
  · rw [(ProcessRates_shared_key exServer (exData 100 250) emptyState).1 "rtr1" hnode]
    decide
  · exact (ProcessRates_shared_key exServer exNoNode emptyState).2.1 hno
  · obtain ⟨-, vals, rc1, hp, hva, hvb, -⟩ :=
      (ProcessRates_shared_key exServer (exData 100 250) emptyState).2.2.2.2.2.2
        "input" "output" 100 250 rfl (by decide) ha hb rfl
    rw [hp, Option.map_some']
    simp only [hva, hvb]
    have : (rateOf (firstBaseline (exData 100 250).Timestamp 250) (F64.ofInt 100) 0
        (F64.ofInt 250)).2.isNone = false := by decide!
    rw [this]
    rfl
  · obtain ⟨-, vals, rc1, hp, hva, hvb, -⟩ :=
      (ProcessRates_shared_key exServer (exData 100 100) emptyState).2.2.2.2.2.2
        "input" "output" 100 100 rfl (by decide) ha2 hb2 rfl
    have h1 : (rateOf (firstBaseline (exData 100 100).Timestamp 100) (F64.ofInt 100) 0
        (F64.ofInt 100)).2.isNone = true := by decide!
    have h2 : (rateOf (firstBaseline (exData 100 100).Timestamp 100) (F64.ofInt 100) 0
        (F64.ofInt 100)).1.isNaN = true := by decide!
    refine ⟨_, ?_, h2⟩
    rw [hp, Option.map_some']
    simp only [hva, hvb, h1, if_true]
  · rw [((ProcessRates_shared_key exServer exLater
        (singleState "interfacertr1ge-0/0/0" (firstBaseline 1000 250))).2.2.2.2.1
        "input" ["output"] rfl).2.2 850 0 (firstBaseline 1000 250) hl hlk
        (singleState_cell _ _)]
    decide!

end Telegraf
